import Mathlib

/-!
Verification development for the Block Breaker game engine
(src/src/lib/gameEngine.ts, src/src/lib/gameUtils.ts).

The TypeScript code is shallowly embedded: JavaScript numbers are modelled
as real numbers where the code takes square roots (ball physics, paddle
reflection) and as rationals or naturals where the code only adds,
multiplies and compares (scores, widths, level layout); the value NaN that
parseInt can produce is modelled as the none case of an Option.
Math.random() draws are passed in explicitly as inputs. Rendering-only
fields (colors, particle visuals, trails) are omitted from the embedded
records, as are the canvas and DOM objects.
-/

namespace BlockBreaker

/-! ## Combo scoring (GameEngine.handleBlockCollision, gameEngine.ts 485-533) -/

/-- Combo counter and running score slice of GameStats. -/
structure ScoreState where
  combo : Nat
  score : Nat
deriving DecidableEq, Repr

/-- Score and combo update performed by GameEngine.handleBlockCollision
(gameEngine.ts lines 499-502): the combo counter is incremented first, then
comboMultiplier = min(5, floor(combo / 3) + 1) is computed from the already
incremented counter, and block.points times that multiplier is added. -/
def handleBlockCollisionScore (points : Nat) (s : ScoreState) : ScoreState :=
  let combo := s.combo + 1
  let comboMultiplier := min 5 (combo / 3 + 1)
  { combo := combo, score := s.score + points * comboMultiplier }

/-- Combo reset on any paddle hit (gameEngine.ts line 447) or on losing all
balls (line 470). -/
def comboReset (s : ScoreState) : ScoreState :=
  { s with combo := 0 }

/-! ## Ball physics over the reals (updateBalls, power-up speed effects) -/

/-- Velocity or position vector, modelling the Vector2D record of x and y
numbers. -/
structure Vec2 where
  x : ℝ
  y : ℝ

/-- Configured maximum ball speed, config.physics.maxBallSpeed
(gameEngine.ts line 99). -/
def maxBallSpeed : ℝ := 500

/-- Magnitude Math.sqrt(v.x * v.x + v.y * v.y) as computed at
gameEngine.ts line 458. -/
noncomputable def speedOf (v : Vec2) : ℝ :=
  Real.sqrt (v.x * v.x + v.y * v.y)

/-- Speed clamp at the end of the per-ball work in GameEngine.updateBalls
(gameEngine.ts lines 457-462): a velocity above maxBallSpeed is rescaled
componentwise to magnitude maxBallSpeed. -/
noncomputable def limitBallSpeed (v : Vec2) : Vec2 :=
  if maxBallSpeed < speedOf v then
    ⟨v.x / speedOf v * maxBallSpeed, v.y / speedOf v * maxBallSpeed⟩
  else v

/-- Ball-slow activation effect in GameEngine.activatePowerUp
(gameEngine.ts lines 603-607): each velocity component is scaled by 0.7. -/
noncomputable def ballSlowActivate (v : Vec2) : Vec2 :=
  ⟨v.x * 0.7, v.y * 0.7⟩

/-- Ball-slow expiry effect in GameEngine.deactivatePowerUp
(gameEngine.ts lines 668-672): each velocity component is scaled by 1.43;
this expiry runs inside updateActivePowerUps, which update (lines 384-393)
calls after updateBalls, hence after the tick's speed clamp. -/
noncomputable def ballSlowDeactivate (v : Vec2) : Vec2 :=
  ⟨v.x * 1.43, v.y * 1.43⟩


/-! ## Paddle reflection and paddle collision
(gameUtils.ts calculateBallPaddleReflection 68-84, ballPaddleCollision 32-47;
gameEngine.ts updateBalls 444-448) -/

/-- Ball record: the position, velocity and radius fields of the Ball
interface (the rendering-only color and trail fields are omitted). -/
structure BallR where
  position : Vec2
  velocity : Vec2
  radius : ℝ

/-- Paddle record: the position, width and height fields of the Paddle
interface (the rendering-only color and the unused velocity are omitted). -/
structure PaddleR where
  position : Vec2
  width : ℝ
  height : ℝ

/-- AABB overlap test ballPaddleCollision (gameUtils.ts lines 32-47):
ballBottom at or below paddleTop, ballTop at or above paddleBottom,
ballRight at or past paddleLeft, ballLeft at or before paddleRight. -/
def ballPaddleCollision (ball : BallR) (paddle : PaddleR) : Prop :=
  paddle.position.y ≤ ball.position.y + ball.radius ∧
  ball.position.y - ball.radius ≤ paddle.position.y + paddle.height ∧
  paddle.position.x ≤ ball.position.x + ball.radius ∧
  ball.position.x - ball.radius ≤ paddle.position.x + paddle.width

/-- Hit offset from the paddle center normalized by the half width and
clamped into [-1, 1], gameUtils.ts lines 70-74. -/
noncomputable def normalizedHit (ball : BallR) (paddle : PaddleR) : ℝ :=
  max (-1)
    (min 1 ((ball.position.x - (paddle.position.x + paddle.width / 2)) / (paddle.width / 2)))

/-- Reflection angle normalizedHit * PI / 3, gameUtils.ts line 77. -/
noncomputable def reflectionAngle (ball : BallR) (paddle : PaddleR) : ℝ :=
  normalizedHit ball paddle * (Real.pi / 3)

/-- Paddle reflection velocity, gameUtils.ts lines 78-83: x = sin(angle) *
speed, y = -abs(cos(angle)) * speed with speed the input velocity magnitude. -/
noncomputable def calculateBallPaddleReflection (ball : BallR) (paddle : PaddleR) : Vec2 :=
  ⟨Real.sin (reflectionAngle ball paddle) * speedOf ball.velocity,
   -|Real.cos (reflectionAngle ball paddle)| * speedOf ball.velocity⟩

open Classical in
/-- Paddle collision resolution in GameEngine.updateBalls (gameEngine.ts
lines 444-448): the reflection is applied and the combo reset only when the
AABBs overlap and ball.velocity.y > 0 (the ball is moving downward). -/
noncomputable def resolvePaddleCollision (ball : BallR) (paddle : PaddleR) (combo : ℕ) :
    BallR × ℕ :=
  if ballPaddleCollision ball paddle ∧ 0 < ball.velocity.y then
    ({ ball with velocity := calculateBallPaddleReflection ball paddle }, 0)
  else (ball, combo)

/-! ## Ball loss, lives and the delayed relaunch
(gameEngine.ts updateBalls 467-483, launchBall 318-334, gameOver 696-699) -/

/-- Game state enumeration (GameState in the types module). -/
inductive GState where
  | startScreen
  | playing
  | paused
  | levelComplete
  | gameOver
  | victory
deriving DecidableEq, Repr

/-- Configured ball radius, config.ball.radius (gameEngine.ts line 77). -/
def ballRadius : ℝ := 8

/-- Engine state slice touched by the all-balls-lost handling: the live
balls, lives, combo, state machine value, whether the loop keeps ticking
(animationId), and whether a delayed relaunch callback is pending
(the setTimeout of line 476). -/
structure LossState where
  balls : List BallR
  lives : ℤ
  combo : ℕ
  gameState : GState
  ticking : Bool
  pendingRelaunch : Bool

/-- GameEngine.launchBall (gameEngine.ts lines 318-334): one new ball above
the paddle center; rand stands for the randomBetween(-100, 100) draw and
ballSpeed for currentLevel.ballSpeed. -/
noncomputable def launchBall (paddle : PaddleR) (ballSpeed rand : ℝ) : BallR :=
  { position := ⟨paddle.position.x + paddle.width / 2,
                 paddle.position.y - ballRadius - 5⟩
    velocity := ⟨rand, -ballSpeed⟩
    radius := ballRadius }

/-- All-balls-lost handling at the end of GameEngine.updateBalls
(gameEngine.ts lines 467-483): when no ball survived the tick, lives is
decremented and combo reset; at zero or fewer lives gameOver (lines 696-699)
sets GAME_OVER and stops the loop, otherwise a delayed relaunch is
scheduled. -/
def handleAllBallsLost (s : LossState) : LossState :=
  if s.balls.length = 0 then
    if s.lives - 1 ≤ 0 then
      { s with lives := s.lives - 1, combo := 0,
               gameState := GState.gameOver, ticking := false }
    else
      { s with lives := s.lives - 1, combo := 0, pendingRelaunch := true }
  else s

/-- Delayed relaunch callback (gameEngine.ts lines 476-480): after the delay
it launches one ball, but only if the state is still PLAYING. -/
noncomputable def relaunchCallback (paddle : PaddleR) (ballSpeed rand : ℝ)
    (s : LossState) : LossState :=
  if s.gameState = GState.playing then
    { s with balls := s.balls ++ [launchBall paddle ballSpeed rand],
             pendingRelaunch := false }
  else s

/-! ## Persisted high score: parseInt, toString and the update rule
(gameEngine.ts getInitialStats 114-123, checkGameState 681-694,
resetGame 302-307) -/

/-- Decimal digit character for a digit value below ten. -/
def digitChar (d : ℕ) : Char :=
  match d with
  | 0 => '0'
  | 1 => '1'
  | 2 => '2'
  | 3 => '3'
  | 4 => '4'
  | 5 => '5'
  | 6 => '6'
  | 7 => '7'
  | 8 => '8'
  | _ => '9'

/-- Whitespace skipped by the ECMAScript parseInt builtin (the common ASCII
white space and line terminator characters). -/
def jsWhitespaceChar (c : Char) : Bool :=
  c == ' ' || c == '\t' || c == '\n' || c == '\r' || c == '\x0B' || c == '\x0C'

/-- Numeric value of a hexadecimal digit character, none for any other
character. -/
def hexDigitVal (c : Char) : Option ℕ :=
  if '0' ≤ c ∧ c ≤ '9' then some (c.toNat - 48)
  else if 'a' ≤ c ∧ c ≤ 'f' then some (c.toNat - 87)
  else if 'A' ≤ c ∧ c ≤ 'F' then some (c.toNat - 55)
  else none

/-- Whether a character is a digit of the given radix. -/
def isRadixDigit (radix : ℕ) (c : Char) : Bool :=
  match hexDigitVal c with
  | some v => decide (v < radix)
  | none => false

/-- Value of a digit string read most significant first. -/
def digitsValue (radix : ℕ) (ds : List Char) : ℕ :=
  ds.foldl (fun a c => radix * a + ((hexDigitVal c).getD 0)) 0

/-- Optional leading sign, as consumed by parseInt. -/
def stripSign (cs : List Char) : ℤ × List Char :=
  match cs with
  | [] => (1, [])
  | c :: rest =>
    if c = '-' then (-1, rest)
    else if c = '+' then (1, rest)
    else (1, c :: rest)

/-- Radix detection of parseInt with no radix argument: a 0x or 0X tag
selects 16, otherwise 10. -/
def stripRadixTag (cs : List Char) : ℕ × List Char :=
  match cs with
  | c0 :: c1 :: rest =>
    if c0 = '0' ∧ (c1 = 'x' ∨ c1 = 'X') then (16, rest)
    else (10, c0 :: c1 :: rest)
  | _ => (10, cs)

/-- Core of the parseInt builtin on an already whitespace-stripped character
list: sign, radix tag, then the longest leading digit run; none (NaN) when
that run is empty. -/
def jsParseIntChars (cs : List Char) : Option ℤ :=
  let sign := (stripSign cs).1
  let cs1 := (stripSign cs).2
  let radix := (stripRadixTag cs1).1
  let cs2 := (stripRadixTag cs1).2
  let ds := cs2.takeWhile (isRadixDigit radix)
  if ds = [] then none else some (sign * (digitsValue radix ds : ℕ))

/-- Models the ECMAScript parseInt builtin called with one argument, as in
parseInt(savedHighScore) at gameEngine.ts line 121; the none result models
NaN. -/
def jsParseInt (s : String) : Option ℤ :=
  jsParseIntChars (s.toList.dropWhile jsWhitespaceChar)

/-- High-score read of GameEngine.getInitialStats (gameEngine.ts lines
114-123): savedHighScore ? parseInt(savedHighScore) : 0, where a missing
key (none) and the empty string are falsy and give 0. -/
def getInitialHighScore (stored : Option String) : Option ℤ :=
  match stored with
  | none => some 0
  | some s => if s = "" then some 0 else jsParseInt s

/-- Models the ECMAScript Number toString builtin on the non-negative
integers the engine stores (highScore.toString() at gameEngine.ts line 692):
standard decimal notation. -/
def numberToString (n : ℕ) : String :=
  if n = 0 then "0"
  else String.mk (((Nat.digits 10 n).map digitChar).reverse)

/-- Character lists made of decimal digit characters; the shape of every
string numberToString produces. -/
def isDigitList (cs : List Char) : Prop :=
  ∀ c ∈ cs, ∃ d, d < 10 ∧ c = digitChar d

/-- High-score update of GameEngine.checkGameState (gameEngine.ts lines
689-693): when score strictly exceeds highScore, the in-memory value is set
to score and its decimal string is persisted; otherwise both are left
alone. -/
def checkHighScoreUpdate (score highScore : ℕ) (stored : Option String) :
    ℕ × Option String :=
  if highScore < score then (score, some (numberToString score))
  else (highScore, stored)

/-- High score after GameEngine.resetGame (gameEngine.ts lines 302-307):
the stats are rebuilt by getInitialStats, which re-reads the persisted
value. -/
def restartHighScore (stored : Option String) : Option ℤ :=
  getInitialHighScore stored

/-! ## Level generation (GameEngine.createLevel, gameEngine.ts 138-178) -/

/-- Configured block grid rows, config.blocks.rows (gameEngine.ts line 89). -/
def blockRows : ℕ := 6

/-- Configured block grid columns, config.blocks.cols (line 90). -/
def blockCols : ℕ := 10

/-- Configured block width, config.blocks.width (line 91). -/
def blockW : ℚ := 70

/-- Configured block height, config.blocks.height (line 92). -/
def blockH : ℚ := 25

/-- Configured block padding, config.blocks.padding (line 93). -/
def blockPadding : ℚ := 5

/-- Configured canvas width, config.canvas.width (line 73). -/
def canvasWidth : ℚ := 800

/-- Horizontal start of the centered grid, gameEngine.ts line 150. -/
def levelStartX : ℚ :=
  (canvasWidth - ((blockCols : ℚ) * (blockW + blockPadding) - blockPadding)) / 2

/-- Vertical start of the grid, gameEngine.ts line 151. -/
def levelStartY : ℚ := 80

/-- Block health for a level, Math.min(3, 1 + Math.floor(levelNumber / 3))
(gameEngine.ts lines 166-167). -/
def blockHealth (levelNumber : ℕ) : ℕ :=
  min 3 (1 + levelNumber / 3)

/-- Per-level power-up drop chance 0.15 + (levelNumber - 1) * 0.05
(gameEngine.ts line 144). -/
def levelPowerUpChance (levelNumber : ℕ) : ℚ :=
  0.15 + ((levelNumber : ℚ) - 1) * 0.05

/-- Block record produced by createLevel (the randomly chosen color string
is omitted). -/
structure BlockQ where
  x : ℚ
  y : ℚ
  width : ℚ
  height : ℚ
  health : ℕ
  maxHealth : ℕ
  points : ℕ
  powerUpChance : ℚ
  destroyed : Bool
deriving DecidableEq, Repr

/-- The block createLevel builds for grid cell (row, col), gameEngine.ts
lines 158-171. -/
def mkBlock (levelNumber row col : ℕ) : BlockQ :=
  { x := levelStartX + (col : ℚ) * (blockW + blockPadding)
    y := levelStartY + (row : ℚ) * (blockH + blockPadding)
    width := blockW
    height := blockH
    health := blockHealth levelNumber
    maxHealth := blockHealth levelNumber
    points := 10 * (row + 1)
    powerUpChance := levelPowerUpChance levelNumber
    destroyed := false }

/-- Block list of GameEngine.createLevel (gameEngine.ts lines 153-175): a
rows-by-cols scan; for levelNumber > 1 a cell whose Math.random() draw
(passed in as rnd row col) is below 0.1 is skipped. -/
def createLevelBlocks (levelNumber : ℕ) (rnd : ℕ → ℕ → ℚ) : List BlockQ :=
  (List.range blockRows).flatMap fun row =>
    (List.range blockCols).filterMap fun col =>
      if 1 < levelNumber ∧ rnd row col < 0.1 then none
      else some (mkBlock levelNumber row col)

/-! ## Power-up activation bookkeeping
(gameEngine.ts activatePowerUp 593-623, getDefaultConfig 70-112) -/

/-- Power-up type enumeration (PowerUpType in the types module). -/
inductive PUType where
  | multiBall
  | paddleExtend
  | ballSlow
  | bonusPoints
deriving DecidableEq, Repr

/-- Configured power-up duration, config.powerUps.duration (gameEngine.ts
line 104). -/
def powerUpDuration : ℚ := 15000

/-- Configured base paddle width, config.paddle.width (line 82). -/
def paddleBaseWidth : ℚ := 100

/-- Configured maximum paddle width, config.paddle.maxWidth (line 86). -/
def paddleMaxWidth : ℚ := 150

/-- activePowerUps.set(type, duration) on the timer map (gameEngine.ts line
594): the entry for the type is overwritten with the full duration. -/
def setTimer (t : PUType) (d : ℚ) (m : PUType → Option ℚ) : PUType → Option ℚ :=
  fun t2 => if t2 = t then some d else m t2

/-- Paddle-extend width effect Math.min(maxWidth, width * 1.5)
(gameEngine.ts line 601). -/
def extendPaddleWidth (w : ℚ) : ℚ :=
  min paddleMaxWidth (w * 1.5)

/-- Activation of a paddle-extend pickup (gameEngine.ts lines 593-602):
the timer for the type is set to the full duration and the paddle width is
scaled and capped. -/
def activatePaddleExtend (w : ℚ) (m : PUType → Option ℚ) :
    ℚ × (PUType → Option ℚ) :=
  (extendPaddleWidth w, setTimer PUType.paddleExtend powerUpDuration m)

/-! ## Concrete inputs used by witness statements -/

/-- Concrete ball for witnesses: above the paddle, moving down-right at
speed 100 * sqrt 2. -/
noncomputable def wBall : BallR :=
  { position := ⟨400, 540⟩, velocity := ⟨100, 100⟩, radius := 8 }

/-- Concrete paddle for witnesses, at the default geometry. -/
noncomputable def wPaddle : PaddleR :=
  { position := ⟨350, 550⟩, width := 100, height := 12 }

/-- Concrete engine slice for the ball-loss witness: no live balls, two
lives, state PLAYING. -/
def wLossState : LossState :=
  { balls := [], lives := 2, combo := 5, gameState := GState.playing,
    ticking := true, pendingRelaunch := false }

/-! ## Speed lemmas -/

lemma speedOf_nonneg (v : Vec2) : 0 ≤ speedOf v :=
  Real.sqrt_nonneg _

lemma speedOf_mk_mul (vx vy k : ℝ) :
    speedOf ⟨vx * k, vy * k⟩ = |k| * speedOf ⟨vx, vy⟩ := by
  unfold speedOf
  have h : vx * k * (vx * k) + vy * k * (vy * k) =
      (k * k) * (vx * vx + vy * vy) := by ring
  rw [h, Real.sqrt_mul (mul_self_nonneg k), Real.sqrt_mul_self_eq_abs]

lemma speedOf_limitBallSpeed_le (v : Vec2) :
    speedOf (limitBallSpeed v) ≤ maxBallSpeed := by
  unfold limitBallSpeed
  by_cases h : maxBallSpeed < speedOf v
  · rw [if_pos h]
    have hs : (0 : ℝ) < speedOf v := by
      have : (0 : ℝ) < maxBallSpeed := by norm_num [maxBallSpeed]
      linarith
    have hx : v.x / speedOf v * maxBallSpeed = v.x * (maxBallSpeed / speedOf v) := by
      ring
    have hy : v.y / speedOf v * maxBallSpeed = v.y * (maxBallSpeed / speedOf v) := by
      ring
    rw [hx, hy, speedOf_mk_mul]
    have habs : |maxBallSpeed / speedOf v| = maxBallSpeed / speedOf v :=
      abs_of_nonneg (div_nonneg (by norm_num [maxBallSpeed]) hs.le)
    rw [habs, div_mul_cancel₀ _ (ne_of_gt hs)]
  · rw [if_neg h]
    exact le_of_not_lt h

lemma speedOf_ballSlowDeactivate (w : Vec2) :
    speedOf (ballSlowDeactivate w) = 1.43 * speedOf w := by
  have h : speedOf (ballSlowDeactivate w) = |(1.43 : ℝ)| * speedOf ⟨w.x, w.y⟩ :=
    speedOf_mk_mul w.x w.y 1.43
  rw [h, abs_of_nonneg (by norm_num : (0 : ℝ) ≤ 1.43)]

/-! ## C1: combo scoring sequence -/

/-- C1 (counterexample): starting from combo = 0 with 10-point blocks, the
code computes the multiplier from the already incremented combo, so the
third consecutive hit already gets multiplier 2: after three hits the score
is 40, not the 30 that the claimed 10, 10, 10 prefix would give. -/
theorem comboScore_third_hit_counterexample :
    (handleBlockCollisionScore 10 (handleBlockCollisionScore 10
        (handleBlockCollisionScore 10 { combo := 0, score := 0 }))).score = 40 ∧
    (handleBlockCollisionScore 10 (handleBlockCollisionScore 10
        (handleBlockCollisionScore 10 { combo := 0, score := 0 }))).score ≠ 30 := by
  decide

/-- C1 (amended): each block hit increments combo and then adds
block.points * min(5, floor(combo / 3) + 1) computed from the incremented
combo, so four consecutive 10-point hits from combo = 0 add score in the
sequence 10, 10, 20, 20 (multiplier 2 is reached on the third hit, when
combo becomes 3); combo resets to 0 on any paddle hit or on losing all
balls. -/
theorem comboScore_sequence_amended :
    (∀ (points : ℕ) (s : ScoreState),
        handleBlockCollisionScore points s =
          { combo := s.combo + 1,
            score := s.score + points * min 5 ((s.combo + 1) / 3 + 1) }) ∧
    handleBlockCollisionScore 10 { combo := 0, score := 0 } = { combo := 1, score := 10 } ∧
    handleBlockCollisionScore 10 { combo := 1, score := 10 } = { combo := 2, score := 20 } ∧
    handleBlockCollisionScore 10 { combo := 2, score := 20 } = { combo := 3, score := 40 } ∧
    handleBlockCollisionScore 10 { combo := 3, score := 40 } = { combo := 4, score := 60 } ∧
    comboReset { combo := 4, score := 60 } = { combo := 0, score := 60 } :=
  ⟨fun _ _ => rfl, by decide, by decide, by decide, by decide, by decide⟩

/-! ## C2: speed-clamp invariant -/

/-- C2 (amended): after the speed clamp at the end of the per-ball work in
updateBalls every surviving ball's speed is at most maxBallSpeed; but a
ball-slow expiry later in the same tick (updateActivePowerUps runs after
updateBalls) scales the velocity by 1.43, so the speed at the very end of
such a tick is only bounded by 1.43 * maxBallSpeed. -/
theorem ballSpeed_clamp_amended (v : Vec2) :
    speedOf (limitBallSpeed v) ≤ maxBallSpeed ∧
    speedOf (ballSlowDeactivate (limitBallSpeed v)) ≤ 1.43 * maxBallSpeed := by
  refine ⟨speedOf_limitBallSpeed_le v, ?_⟩
  rw [speedOf_ballSlowDeactivate]
  have h := speedOf_limitBallSpeed_le v
  nlinarith [h]

/-- C2 (counterexample): the ball with velocity (300, 400) has speed exactly
500 = maxBallSpeed, so the clamp leaves it unchanged; a ball-slow expiry in
the same tick then raises its speed to 715, above the configured maximum,
so the claimed end-of-tick invariant fails. -/
theorem ballSpeed_tick_end_counterexample :
    speedOf (ballSlowDeactivate (limitBallSpeed ⟨300, 400⟩)) = 715 ∧
    ¬ speedOf (ballSlowDeactivate (limitBallSpeed ⟨300, 400⟩)) ≤ maxBallSpeed := by
  have h0 : speedOf ⟨(300 : ℝ), 400⟩ = 500 := by
    unfold speedOf
    rw [show ((300 : ℝ) * 300 + 400 * 400) = 500 ^ 2 by norm_num]
    exact Real.sqrt_sq (by norm_num)
  have h1 : limitBallSpeed ⟨(300 : ℝ), 400⟩ = ⟨300, 400⟩ := by
    unfold limitBallSpeed
    rw [h0, if_neg (by norm_num [maxBallSpeed])]
  have h2 : speedOf (ballSlowDeactivate (limitBallSpeed ⟨300, 400⟩)) = 715 := by
    rw [h1, speedOf_ballSlowDeactivate, h0]
    norm_num
  exact ⟨h2, by rw [h2]; norm_num [maxBallSpeed]⟩

/-! ## C3: ball-slow expiry is not the exact inverse of activation -/

/-- C3: activation scales each velocity component by 0.7 and expiry by 1.43,
and 0.7 * 1.43 = 1.001, so the expiry is not the exact reciprocal of the
activation: the velocity (100, 0) comes back as (100.1, 0), not (100, 0),
contradicting the comment at gameEngine.ts line 670 that claims to reverse
the 0.7 multiplier. -/
theorem ballSlow_expiry_not_exact_inverse :
    (∀ v : Vec2, ballSlowDeactivate (ballSlowActivate v) = ⟨v.x * 1.001, v.y * 1.001⟩) ∧
    ballSlowDeactivate (ballSlowActivate ⟨100, 0⟩) = ⟨100.1, 0⟩ ∧
    (100.1 : ℝ) ≠ 100 := by
  have key : ∀ v : Vec2,
      ballSlowDeactivate (ballSlowActivate v) = ⟨v.x * 1.001, v.y * 1.001⟩ := by
    intro v
    unfold ballSlowActivate ballSlowDeactivate
    congr 1 <;> · rw [mul_assoc]; norm_num
  refine ⟨key, ?_, by norm_num⟩
  rw [key ⟨100, 0⟩]
  congr 1 <;> norm_num

/-! ## C4: paddle reflection geometry -/

lemma normalizedHit_le (b : BallR) (p : PaddleR) :
    -1 ≤ normalizedHit b p ∧ normalizedHit b p ≤ 1 :=
  ⟨le_max_left _ _, max_le (by norm_num) (min_le_left _ _)⟩

lemma abs_reflectionAngle_le (b : BallR) (p : PaddleR) :
    |reflectionAngle b p| ≤ Real.pi / 3 := by
  unfold reflectionAngle
  have h := normalizedHit_le b p
  have hnh : |normalizedHit b p| ≤ 1 := abs_le.mpr h
  have hpi : (0 : ℝ) ≤ Real.pi / 3 := by positivity
  calc |normalizedHit b p * (Real.pi / 3)|
      = |normalizedHit b p| * |Real.pi / 3| := abs_mul _ _
    _ ≤ 1 * (Real.pi / 3) := by
        rw [abs_of_nonneg hpi]
        exact mul_le_mul_of_nonneg_right hnh hpi
    _ = Real.pi / 3 := one_mul _

lemma cos_reflectionAngle_pos (b : BallR) (p : PaddleR) :
    0 < Real.cos (reflectionAngle b p) := by
  have h := abs_le.mp (abs_reflectionAngle_le b p)
  have hpi := Real.pi_pos
  exact Real.cos_pos_of_mem_Ioo ⟨by linarith [h.1], by linarith [h.2]⟩

lemma speedOf_pos_of_ne (v : Vec2) (h : v.x ≠ 0 ∨ v.y ≠ 0) :
    0 < speedOf v := by
  apply Real.sqrt_pos.mpr
  rcases h with h | h
  · nlinarith [mul_self_pos.mpr h, mul_self_nonneg v.y]
  · nlinarith [mul_self_pos.mpr h, mul_self_nonneg v.x]

lemma speedOf_sin_cos (a s : ℝ) (hs : 0 ≤ s) :
    speedOf ⟨Real.sin a * s, -|Real.cos a| * s⟩ = s := by
  unfold speedOf
  have h : Real.sin a * s * (Real.sin a * s) + -|Real.cos a| * s * (-|Real.cos a| * s) =
      (Real.sin a ^ 2 + |Real.cos a| ^ 2) * s ^ 2 := by ring
  rw [h, sq_abs, Real.sin_sq_add_cos_sq, one_mul, Real.sqrt_sq hs]

/-- C4: the paddle reflection preserves the velocity magnitude, always
points upward, stays within 60 degrees of vertical, is purely vertical for
a hit at the exact paddle center, and is at exactly 60 degrees from
vertical for a hit at or beyond either paddle edge. -/
theorem paddleReflection_spec (b : BallR) (p : PaddleR)
    (hv : b.velocity.x ≠ 0 ∨ b.velocity.y ≠ 0) (hw : 0 < p.width) :
    speedOf (calculateBallPaddleReflection b p) = speedOf b.velocity ∧
    (calculateBallPaddleReflection b p).y < 0 ∧
    (∃ θ : ℝ, |θ| ≤ Real.pi / 3 ∧
        calculateBallPaddleReflection b p =
          ⟨Real.sin θ * speedOf b.velocity, -(Real.cos θ * speedOf b.velocity)⟩) ∧
    (b.position.x = p.position.x + p.width / 2 →
        calculateBallPaddleReflection b p = ⟨0, -speedOf b.velocity⟩) ∧
    (p.position.x + p.width ≤ b.position.x →
        calculateBallPaddleReflection b p =
          ⟨Real.sin (Real.pi / 3) * speedOf b.velocity,
           -(Real.cos (Real.pi / 3) * speedOf b.velocity)⟩) ∧
    (b.position.x ≤ p.position.x →
        calculateBallPaddleReflection b p =
          ⟨-(Real.sin (Real.pi / 3) * speedOf b.velocity),
           -(Real.cos (Real.pi / 3) * speedOf b.velocity)⟩) := by
  have hs0 : 0 ≤ speedOf b.velocity := Real.sqrt_nonneg _
  have hspos : 0 < speedOf b.velocity := speedOf_pos_of_ne _ hv
  have hcos := cos_reflectionAngle_pos b p
  have habs : |Real.cos (reflectionAngle b p)| = Real.cos (reflectionAngle b p) :=
    abs_of_pos hcos
  refine ⟨speedOf_sin_cos _ _ hs0, ?_, ?_, ?_, ?_, ?_⟩
  · show -|Real.cos (reflectionAngle b p)| * speedOf b.velocity < 0
    rw [habs, neg_mul]
    exact neg_lt_zero.mpr (mul_pos hcos hspos)
  · refine ⟨reflectionAngle b p, abs_reflectionAngle_le b p, ?_⟩
    unfold calculateBallPaddleReflection
    rw [habs, neg_mul]
  · intro hc
    have hhit : (b.position.x - (p.position.x + p.width / 2)) / (p.width / 2) = 0 := by
      rw [hc]
      simp
    have hnh : normalizedHit b p = 0 := by
      unfold normalizedHit
      rw [hhit]
      norm_num
    have hang : reflectionAngle b p = 0 := by
      unfold reflectionAngle
      rw [hnh, zero_mul]
    unfold calculateBallPaddleReflection
    rw [hang, Real.sin_zero, Real.cos_zero, zero_mul, abs_one, neg_mul, one_mul]
  · intro hc
    have hw2 : (0 : ℝ) < p.width / 2 := by linarith
    have hhit : 1 ≤ (b.position.x - (p.position.x + p.width / 2)) / (p.width / 2) := by
      rw [le_div_iff₀ hw2]
      linarith
    have hnh : normalizedHit b p = 1 := by
      unfold normalizedHit
      rw [min_eq_left hhit]
      norm_num
    have hang : reflectionAngle b p = Real.pi / 3 := by
      unfold reflectionAngle
      rw [hnh, one_mul]
    have hcpos : (0 : ℝ) < Real.cos (Real.pi / 3) := by
      rw [Real.cos_pi_div_three]; norm_num
    unfold calculateBallPaddleReflection
    rw [hang, abs_of_pos hcpos, neg_mul]
  · intro hc
    have hw2 : (0 : ℝ) < p.width / 2 := by linarith
    have hhit : (b.position.x - (p.position.x + p.width / 2)) / (p.width / 2) ≤ -1 := by
      rw [div_le_iff₀ hw2]
      linarith
    have hnh : normalizedHit b p = -1 := by
      unfold normalizedHit
      rw [min_eq_right (by linarith : (b.position.x - (p.position.x + p.width / 2)) / (p.width / 2) ≤ 1)]
      exact max_eq_left hhit
    have hang : reflectionAngle b p = -(Real.pi / 3) := by
      unfold reflectionAngle
      rw [hnh]
      ring
    have hcpos : (0 : ℝ) < Real.cos (Real.pi / 3) := by
      rw [Real.cos_pi_div_three]; norm_num
    unfold calculateBallPaddleReflection
    rw [hang, Real.sin_neg, Real.cos_neg, abs_of_pos hcpos, neg_mul, neg_mul]

/-- C4 (witness): the reflection theorem instantiated at a concrete ball
with velocity (100, 100) and the default-geometry paddle. -/
theorem paddleReflection_spec_witness :
    (wBall.velocity.x ≠ 0 ∨ wBall.velocity.y ≠ 0) ∧ 0 < wPaddle.width ∧
    (speedOf (calculateBallPaddleReflection wBall wPaddle) = speedOf wBall.velocity ∧
     (calculateBallPaddleReflection wBall wPaddle).y < 0 ∧
     (∃ θ : ℝ, |θ| ≤ Real.pi / 3 ∧
         calculateBallPaddleReflection wBall wPaddle =
           ⟨Real.sin θ * speedOf wBall.velocity,
            -(Real.cos θ * speedOf wBall.velocity)⟩) ∧
     (wBall.position.x = wPaddle.position.x + wPaddle.width / 2 →
         calculateBallPaddleReflection wBall wPaddle = ⟨0, -speedOf wBall.velocity⟩) ∧
     (wPaddle.position.x + wPaddle.width ≤ wBall.position.x →
         calculateBallPaddleReflection wBall wPaddle =
           ⟨Real.sin (Real.pi / 3) * speedOf wBall.velocity,
            -(Real.cos (Real.pi / 3) * speedOf wBall.velocity)⟩) ∧
     (wBall.position.x ≤ wPaddle.position.x →
         calculateBallPaddleReflection wBall wPaddle =
           ⟨-(Real.sin (Real.pi / 3) * speedOf wBall.velocity),
            -(Real.cos (Real.pi / 3) * speedOf wBall.velocity)⟩)) :=
  ⟨Or.inl (by norm_num [wBall]), by norm_num [wPaddle],
    paddleReflection_spec wBall wPaddle (Or.inl (by norm_num [wBall]))
      (by norm_num [wPaddle])⟩

/-! ## C10: paddle collision only applies to balls moving downward -/

/-- C10: during a tick, a ball is reflected off the paddle and the combo
reset only when the AABBs overlap and the vertical velocity is strictly
positive (moving downward); a ball overlapping the paddle while moving
upward or horizontally, or one not overlapping at all, keeps its velocity
and the combo is untouched. -/
theorem paddleCollision_downward_only (ball : BallR) (paddle : PaddleR) (combo : ℕ) :
    (ball.velocity.y ≤ 0 →
        resolvePaddleCollision ball paddle combo = (ball, combo)) ∧
    (¬ ballPaddleCollision ball paddle →
        resolvePaddleCollision ball paddle combo = (ball, combo)) ∧
    (ballPaddleCollision ball paddle → 0 < ball.velocity.y →
        resolvePaddleCollision ball paddle combo =
          ({ ball with velocity := calculateBallPaddleReflection ball paddle }, 0)) := by
  unfold resolvePaddleCollision
  refine ⟨fun h => ?_, fun h => ?_, fun h1 h2 => ?_⟩
  · rw [if_neg (fun hc => absurd hc.2 (not_lt.mpr h))]
  · rw [if_neg (fun hc => h hc.1)]
  · rw [if_pos ⟨h1, h2⟩]

/-! ## C5: losing all balls -/

/-- C5: when a tick in the PLAYING state ends with no live balls, a life is
lost and the combo resets; with one life left the state becomes GAME_OVER
and ticking stops, while with two or more lives the state stays PLAYING and
the delayed relaunch then spawns exactly one new ball; the relaunch
callback does nothing unless the state is still PLAYING when it fires. -/
theorem ballLoss_transitions (s : LossState) (paddle : PaddleR) (ballSpeed rand : ℝ)
    (hplay : s.gameState = GState.playing) (hballs : s.balls = []) :
    (s.lives = 1 →
        (handleAllBallsLost s).gameState = GState.gameOver ∧
        (handleAllBallsLost s).lives = 0 ∧
        (handleAllBallsLost s).combo = 0 ∧
        (handleAllBallsLost s).ticking = false) ∧
    (2 ≤ s.lives →
        (handleAllBallsLost s).lives = s.lives - 1 ∧
        (handleAllBallsLost s).combo = 0 ∧
        (handleAllBallsLost s).gameState = GState.playing ∧
        (relaunchCallback paddle ballSpeed rand (handleAllBallsLost s)).balls.length = 1) ∧
    (∀ t : LossState, t.gameState ≠ GState.playing →
        relaunchCallback paddle ballSpeed rand t = t) := by
  have hlen : s.balls.length = 0 := by rw [hballs]; rfl
  refine ⟨fun h1 => ?_, fun h2 => ?_, fun t ht => ?_⟩
  · unfold handleAllBallsLost
    rw [if_pos hlen, if_pos (by omega : s.lives - 1 ≤ 0)]
    refine ⟨rfl, ?_, rfl, rfl⟩
    show s.lives - 1 = 0
    omega
  · unfold handleAllBallsLost
    rw [if_pos hlen, if_neg (by omega : ¬ s.lives - 1 ≤ 0)]
    refine ⟨rfl, rfl, hplay, ?_⟩
    unfold relaunchCallback
    rw [if_pos hplay]
    show (s.balls ++ [launchBall paddle ballSpeed rand]).length = 1
    rw [hballs]
    rfl
  · unfold relaunchCallback
    rw [if_neg ht]

/-- C5 (witness): the ball-loss theorem instantiated at a concrete PLAYING
state with no balls and two lives. -/
theorem ballLoss_transitions_witness :
    wLossState.gameState = GState.playing ∧ wLossState.balls = [] ∧
    ((wLossState.lives = 1 →
        (handleAllBallsLost wLossState).gameState = GState.gameOver ∧
        (handleAllBallsLost wLossState).lives = 0 ∧
        (handleAllBallsLost wLossState).combo = 0 ∧
        (handleAllBallsLost wLossState).ticking = false) ∧
     (2 ≤ wLossState.lives →
        (handleAllBallsLost wLossState).lives = wLossState.lives - 1 ∧
        (handleAllBallsLost wLossState).combo = 0 ∧
        (handleAllBallsLost wLossState).gameState = GState.playing ∧
        (relaunchCallback wPaddle 300 0 (handleAllBallsLost wLossState)).balls.length = 1) ∧
     (∀ t : LossState, t.gameState ≠ GState.playing →
        relaunchCallback wPaddle 300 0 t = t)) :=
  ⟨rfl, rfl, ballLoss_transitions wLossState wPaddle 300 0 rfl rfl⟩

/-! ## C8: paddle-extend does not stack -/

/-- C8: activating paddle-extend twice in a row from any width at least the
configured base width leaves the width exactly where a single application
put it, min(maxWidth, 1.5 * width) = maxWidth, and every activation
overwrites the remaining duration with the full configured value rather
than adding to it. -/
theorem paddleExtend_no_stacking (w : ℚ) (m : PUType → Option ℚ)
    (hw : paddleBaseWidth ≤ w) :
    (activatePaddleExtend (activatePaddleExtend w m).1 (activatePaddleExtend w m).2).1 =
      (activatePaddleExtend w m).1 ∧
    (activatePaddleExtend w m).1 = min paddleMaxWidth (w * 1.5) ∧
    (activatePaddleExtend w m).1 ≤ paddleMaxWidth ∧
    (activatePaddleExtend w m).2 PUType.paddleExtend = some powerUpDuration ∧
    (activatePaddleExtend (activatePaddleExtend w m).1 (activatePaddleExtend w m).2).2
      PUType.paddleExtend = some powerUpDuration := by
  have h1 : extendPaddleWidth w = paddleMaxWidth := by
    unfold extendPaddleWidth
    apply min_eq_left
    unfold paddleBaseWidth at hw
    unfold paddleMaxWidth
    nlinarith [hw]
  have h2 : extendPaddleWidth paddleMaxWidth = paddleMaxWidth := by
    unfold extendPaddleWidth paddleMaxWidth
    norm_num
  refine ⟨?_, rfl, min_le_left _ _, ?_, ?_⟩
  · show extendPaddleWidth (extendPaddleWidth w) = extendPaddleWidth w
    rw [h1, h2]
  · simp [activatePaddleExtend, setTimer]
  · simp [activatePaddleExtend, setTimer]

/-- C8 (witness): the no-stacking theorem instantiated at the configured
base width 100 and the empty timer map. -/
theorem paddleExtend_no_stacking_witness :
    paddleBaseWidth ≤ (100 : ℚ) ∧
    ((activatePaddleExtend (activatePaddleExtend 100 (fun _ => none)).1
        (activatePaddleExtend 100 (fun _ => none)).2).1 =
      (activatePaddleExtend 100 (fun _ => none)).1 ∧
    (activatePaddleExtend 100 (fun _ => none)).1 = min paddleMaxWidth (100 * 1.5) ∧
    (activatePaddleExtend 100 (fun _ => none)).1 ≤ paddleMaxWidth ∧
    (activatePaddleExtend 100 (fun _ => none)).2 PUType.paddleExtend = some powerUpDuration ∧
    (activatePaddleExtend (activatePaddleExtend 100 (fun _ => none)).1
        (activatePaddleExtend 100 (fun _ => none)).2).2
      PUType.paddleExtend = some powerUpDuration) :=
  ⟨by norm_num [paddleBaseWidth],
    paddleExtend_no_stacking 100 (fun _ => none) (by norm_num [paddleBaseWidth])⟩

/-! ## C7: level generation -/

lemma filterMap_congr_of_mem {α β : Type} {f g : α → Option β} (l : List α)
    (h : ∀ a ∈ l, f a = g a) : l.filterMap f = l.filterMap g := by
  induction l with
  | nil => rfl
  | cons a t ih =>
    rw [List.filterMap_cons, List.filterMap_cons, h a (by simp),
      ih fun x hx => h x (by simp [hx])]

lemma filterMap_some_eq_map {α β : Type} (f : α → β) (l : List α) :
    (l.filterMap fun a => some (f a)) = l.map f := by
  induction l with
  | nil => rfl
  | cons a t ih => rw [List.filterMap_cons, List.map_cons, ih]

lemma filterMap_if_eq_map_filter {α β : Type} (p : α → Prop) [DecidablePred p]
    (f : α → β) (l : List α) :
    (l.filterMap fun a => if p a then none else some (f a)) =
      (l.filter fun a => decide (¬ p a)).map f := by
  induction l with
  | nil => rfl
  | cons a t ih =>
    by_cases h : p a
    · simp [List.filterMap_cons, List.filter_cons, h, ih]
    · simp [List.filterMap_cons, List.filter_cons, h, ih]

/-- C7: every block createLevel produces starts undamaged with
health = maxHealth = min(3, 1 + floor(level / 3)), destroyed = false and
points = 10 * (rowIndex + 1); for level 1 every cell of the rows-by-cols
grid is populated (exactly rows * cols blocks), while for level > 1 exactly
the cells whose random draw is below 0.1 are skipped. -/
theorem createLevel_blocks_spec (levelNumber : ℕ) (rnd : ℕ → ℕ → ℚ) :
    (∀ b ∈ createLevelBlocks levelNumber rnd,
        b.health = min 3 (1 + levelNumber / 3) ∧
        b.maxHealth = b.health ∧
        b.destroyed = false ∧
        ∃ row col, row < blockRows ∧ col < blockCols ∧
          b = mkBlock levelNumber row col ∧ b.points = 10 * (row + 1)) ∧
    (levelNumber = 1 →
        createLevelBlocks levelNumber rnd =
          (List.range blockRows).flatMap (fun row =>
            (List.range blockCols).map (mkBlock levelNumber row)) ∧
        (createLevelBlocks levelNumber rnd).length = blockRows * blockCols) ∧
    (1 < levelNumber →
        createLevelBlocks levelNumber rnd =
          (List.range blockRows).flatMap (fun row =>
            ((List.range blockCols).filter fun col =>
                decide (¬ rnd row col < 0.1)).map (mkBlock levelNumber row))) := by
  refine ⟨?_, ?_, ?_⟩
  · intro b hb
    unfold createLevelBlocks at hb
    rw [List.mem_flatMap] at hb
    obtain ⟨row, hrow, hb⟩ := hb
    rw [List.mem_filterMap] at hb
    obtain ⟨col, hcol, hsome⟩ := hb
    rw [List.mem_range] at hrow
    rw [List.mem_range] at hcol
    by_cases hskip : 1 < levelNumber ∧ rnd row col < 0.1
    · rw [if_pos hskip] at hsome
      exact absurd hsome (by simp)
    · rw [if_neg hskip] at hsome
      have hb : b = mkBlock levelNumber row col := (Option.some.inj hsome).symm
      subst hb
      exact ⟨rfl, rfl, rfl, row, col, hrow, hcol, rfl, rfl⟩
  · intro h1
    subst h1
    have hfun : ∀ row,
        ((List.range blockCols).filterMap fun col =>
          if 1 < 1 ∧ rnd row col < 0.1 then none else some (mkBlock 1 row col)) =
        (List.range blockCols).map (mkBlock 1 row) := by
      intro row
      rw [filterMap_congr_of_mem (g := fun col => some (mkBlock 1 row col))
        (List.range blockCols)
        (fun col _ => if_neg fun hc => absurd hc.1 (by norm_num))]
      exact filterMap_some_eq_map _ _
    constructor
    · unfold createLevelBlocks
      simp only [hfun]
    · unfold createLevelBlocks
      simp only [hfun]
      rfl
  · intro hL
    unfold createLevelBlocks
    have hfun : ∀ row,
        ((List.range blockCols).filterMap fun col =>
          if 1 < levelNumber ∧ rnd row col < 0.1 then none
          else some (mkBlock levelNumber row col)) =
        ((List.range blockCols).filter fun col =>
            decide (¬ rnd row col < 0.1)).map (mkBlock levelNumber row) := by
      intro row
      rw [filterMap_congr_of_mem
        (g := fun col => if rnd row col < 0.1 then none
          else some (mkBlock levelNumber row col))
        (List.range blockCols)
        (fun col _ => if_congr (and_iff_right hL) rfl rfl)]
      exact filterMap_if_eq_map_filter _ _ _
    simp only [hfun]

/-! ## Digit strings: parseInt inverts numberToString -/

lemma digitChar_facts (d : ℕ) (hd : d < 10) :
    hexDigitVal (digitChar d) = some d ∧
    jsWhitespaceChar (digitChar d) = false ∧
    digitChar d ≠ '-' ∧ digitChar d ≠ '+' ∧
    digitChar d ≠ 'x' ∧ digitChar d ≠ 'X' := by
  interval_cases d <;> decide

lemma isRadixDigit_ten (d : ℕ) (hd : d < 10) :
    isRadixDigit 10 (digitChar d) = true := by
  unfold isRadixDigit
  rw [(digitChar_facts d hd).1]
  exact decide_eq_true hd

lemma dropWhile_ws_digits (cs : List Char) (h : isDigitList cs) :
    cs.dropWhile jsWhitespaceChar = cs := by
  cases cs with
  | nil => rfl
  | cons c t =>
    obtain ⟨d, hd, rfl⟩ := h c (by simp)
    rw [List.dropWhile_cons, (digitChar_facts d hd).2.1, if_neg (by simp)]

lemma stripSign_digits (cs : List Char) (h : isDigitList cs) :
    stripSign cs = (1, cs) := by
  cases cs with
  | nil => rfl
  | cons c t =>
    obtain ⟨d, hd, rfl⟩ := h c (by simp)
    simp only [stripSign]
    rw [if_neg (digitChar_facts d hd).2.2.1, if_neg (digitChar_facts d hd).2.2.2.1]

lemma stripRadixTag_digits (cs : List Char) (h : isDigitList cs) :
    stripRadixTag cs = (10, cs) := by
  cases cs with
  | nil => rfl
  | cons c0 rest =>
    cases rest with
    | nil => rfl
    | cons c1 t =>
      obtain ⟨d1, hd1, h1⟩ := h c1 (by simp)
      simp only [stripRadixTag]
      rw [if_neg]
      rintro ⟨-, hx | hx⟩
      · exact (h1 ▸ (digitChar_facts d1 hd1).2.2.2.2.1) hx
      · exact (h1 ▸ (digitChar_facts d1 hd1).2.2.2.2.2) hx

lemma takeWhile_digits (cs : List Char) (h : isDigitList cs) :
    cs.takeWhile (isRadixDigit 10) = cs := by
  induction cs with
  | nil => rfl
  | cons c t ih =>
    obtain ⟨d, hd, rfl⟩ := h c (by simp)
    rw [List.takeWhile_cons, isRadixDigit_ten d hd, if_pos rfl,
      ih fun x hx => h x (by simp [hx])]

lemma foldl_digitsValue_map (l : List ℕ) (h : ∀ d ∈ l, d < 10) (acc : ℕ) :
    List.foldl (fun a c => 10 * a + ((hexDigitVal c).getD 0)) acc (l.map digitChar) =
      List.foldl (fun a d => 10 * a + d) acc l := by
  induction l generalizing acc with
  | nil => rfl
  | cons d t ih =>
    rw [List.map_cons, List.foldl_cons, List.foldl_cons,
      (digitChar_facts d (h d (by simp))).1]
    exact ih (fun x hx => h x (by simp [hx])) _

lemma foldl_base_reverse (l : List ℕ) (acc : ℕ) :
    List.foldl (fun a d => 10 * a + d) acc l.reverse =
      acc * 10 ^ l.length + Nat.ofDigits 10 l := by
  induction l generalizing acc with
  | nil => simp
  | cons d t ih =>
    rw [List.reverse_cons, List.foldl_append, ih]
    rw [Nat.ofDigits_cons]
    show 10 * (acc * 10 ^ t.length + Nat.ofDigits 10 t) + d =
      acc * 10 ^ (d :: t).length + (d + 10 * Nat.ofDigits 10 t)
    rw [List.length_cons]
    ring

lemma isDigitList_of_digits (n : ℕ) :
    isDigitList (((Nat.digits 10 n).map digitChar).reverse) := by
  intro c hc
  rw [List.mem_reverse, List.mem_map] at hc
  obtain ⟨d, hd, rfl⟩ := hc
  exact ⟨d, Nat.digits_lt_base (by norm_num) hd, rfl⟩

lemma digits_chars_ne_nil (n : ℕ) (hn : n ≠ 0) :
    ((Nat.digits 10 n).map digitChar).reverse ≠ [] := by
  simp [Nat.digits_ne_nil_iff_ne_zero, hn]

lemma digitsValue_digits (n : ℕ) :
    digitsValue 10 (((Nat.digits 10 n).map digitChar).reverse) = n := by
  unfold digitsValue
  rw [← List.map_reverse]
  rw [foldl_digitsValue_map _
    (fun d hd => Nat.digits_lt_base (by norm_num) (List.mem_reverse.mp hd)) 0]
  rw [foldl_base_reverse]
  simp [Nat.ofDigits_digits]

lemma jsParseIntChars_digits (cs : List Char) (h : isDigitList cs) (hne : cs ≠ []) :
    jsParseIntChars cs = some ((digitsValue 10 cs : ℕ) : ℤ) := by
  simp only [jsParseIntChars, stripSign_digits cs h]
  simp only [stripRadixTag_digits cs h, takeWhile_digits cs h]
  rw [if_neg hne]
  simp

lemma jsParseInt_numberToString (n : ℕ) :
    jsParseInt (numberToString n) = some (n : ℤ) := by
  by_cases hn : n = 0
  · subst hn
    decide
  · unfold numberToString
    rw [if_neg hn]
    unfold jsParseInt
    have htl : (String.mk (((Nat.digits 10 n).map digitChar).reverse)).toList =
        ((Nat.digits 10 n).map digitChar).reverse := rfl
    rw [htl, dropWhile_ws_digits _ (isDigitList_of_digits n),
      jsParseIntChars_digits _ (isDigitList_of_digits n) (digits_chars_ne_nil n hn),
      digitsValue_digits n]

lemma numberToString_ne_empty (n : ℕ) : numberToString n ≠ "" := by
  by_cases hn : n = 0
  · subst hn
    decide
  · unfold numberToString
    rw [if_neg hn]
    intro h
    exact digits_chars_ne_nil n hn (congrArg String.data h)

lemma restartHighScore_numberToString (n : ℕ) :
    restartHighScore (some (numberToString n)) = some (n : ℤ) := by
  simp only [restartHighScore, getInitialHighScore]
  rw [if_neg (numberToString_ne_empty n), jsParseInt_numberToString]

/-! ## C9: reading the persisted high score -/

/-- C9 (counterexample): the stored string "abc" is parsed by
parseInt to NaN, not treated as zero, so the initial in-memory high score
is not a non-negative integer for every possible storage content. -/
theorem highScore_malformed_counterexample :
    getInitialHighScore (some ("abc")) = none ∧
    (∀ n : ℕ, getInitialHighScore (some ("abc")) ≠ some (n : ℤ)) := by
  have h1 : getInitialHighScore (some ("abc")) = none := by decide
  exact ⟨h1, fun n h => Option.noConfusion (h1 ▸ h)⟩

/-- C9 (amended): construction never fails (the read is total) and a missing
or empty stored value yields 0, but a stored value with no parsable numeric
prefix yields NaN (modelled none) rather than zero, and a negative numeral
parses to a negative value, so the initial high score need not be a
non-negative integer. -/
theorem highScore_parse_amended :
    getInitialHighScore none = some 0 ∧
    getInitialHighScore (some ("")) = some 0 ∧
    getInitialHighScore (some ("abc")) = none ∧
    getInitialHighScore (some ("-5")) = some (-5) ∧
    getInitialHighScore (some ("150")) = some 150 := by
  decide

/-! ## C6: high-score update, persistence and restart -/

/-- C6: the high score is updated in memory and persisted exactly on a tick
whose running score strictly exceeds it (so on the first such tick), it
never decreases, and after the update or on any other tick the persisted
string still re-reads to the in-memory value, so a game-over/restart cycle
(which rebuilds the stats from storage) recovers it unchanged until a later
run strictly surpasses it. -/
theorem highScore_update_persist_restart (score highScore : ℕ)
    (stored : Option String)
    (hmatch : getInitialHighScore stored = some ((highScore : ℕ) : ℤ)) :
    (highScore < score →
        checkHighScoreUpdate score highScore stored =
          (score, some (numberToString score))) ∧
    (¬ highScore < score →
        checkHighScoreUpdate score highScore stored = (highScore, stored)) ∧
    highScore ≤ (checkHighScoreUpdate score highScore stored).1 ∧
    restartHighScore ((checkHighScoreUpdate score highScore stored).2) =
      some ((((checkHighScoreUpdate score highScore stored).1 : ℕ) : ℤ)) := by
  unfold checkHighScoreUpdate
  by_cases h : highScore < score
  · rw [if_pos h]
    refine ⟨fun _ => rfl, fun hc => absurd h hc, le_of_lt h, ?_⟩
    exact restartHighScore_numberToString score
  · rw [if_neg h]
    exact ⟨fun hc => absurd hc h, fun _ => rfl, le_refl _, hmatch⟩

/-- C6 (witness): the update theorem instantiated at running score 150,
high score 100 and the stored string "100". -/
theorem highScore_update_persist_restart_witness :
    getInitialHighScore (some ("100")) = some (((100 : ℕ) : ℤ)) ∧
    ((100 < 150 →
        checkHighScoreUpdate 150 100 (some ("100")) =
          (150, some (numberToString 150))) ∧
     (¬ 100 < 150 →
        checkHighScoreUpdate 150 100 (some ("100")) = (100, some ("100"))) ∧
     100 ≤ (checkHighScoreUpdate 150 100 (some ("100"))).1 ∧
     restartHighScore ((checkHighScoreUpdate 150 100 (some ("100"))).2) =
       some ((((checkHighScoreUpdate 150 100 (some ("100"))).1 : ℕ) : ℤ))) :=
  ⟨by decide, highScore_update_persist_restart 150 100 (some ("100")) (by decide)⟩

end BlockBreaker
